import Mathlib

/-!
Verification of the shijim market-data pipeline against its
natural-language specification.

Each Python component named in a claim is shallowly embedded as
executable Lean definitions: pure functions become Lean functions,
stateful methods become explicit state passing, machine integers become
Nat/Int, Python floats on the claim-relevant inputs become exact
rationals, and fallible code returns Except/Option.  Definitions are
translated from the source files under src/shijim; theorems relate them
to the specified behaviour.
-/

/- ------------------------------------------------------------------ -/
/- Event bus (src/shijim/bus/event_bus.py, class InMemoryEventBus)     -/
/- ------------------------------------------------------------------ -/

/-- Bus-level view of a normalized event.  The competing-consumer bus
only ever inspects the dynamic `type` tag of `BaseMDEvent`
(src/shijim/events/schema.py); the embedding keeps the tag plus an
identifying payload. -/
structure BusEvent where
  type : String
  id : Nat
deriving DecidableEq, Repr

/-- State of an `InMemoryEventBus`: one FIFO deque per topic (Python
`defaultdict(deque)`, missing keys read as the empty queue) plus the
per-topic count of events discarded by the drop-oldest policy (the
`queue.popleft()` branch of `publish`). -/
structure BusState where
  queues : String → List BusEvent
  dropped : String → Nat

/-- Fresh bus: every queue empty, nothing dropped. -/
def emptyBus : BusState :=
  { queues := fun _ => [], dropped := fun _ => 0 }

/-- One deque update of `InMemoryEventBus.publish`: when the queue is
full (`len(queue) >= self.max_queue_size`) the oldest entry is removed
with `popleft()` before the new event is appended. -/
def queuePush (maxQueueSize : Nat) (q : List BusEvent) (e : BusEvent) : List BusEvent :=
  if maxQueueSize ≤ q.length then q.tail ++ [e] else q ++ [e]

/-- Number of events evicted by one `queuePush` (1 when the overflow
branch ran, else 0). -/
def queuePushDrops (maxQueueSize : Nat) (q : List BusEvent) : Nat :=
  if maxQueueSize ≤ q.length then 1 else 0

/-- `InMemoryEventBus.publish`: the event is appended to the deque of
its own type and to the wildcard deque, each with drop-oldest
backpressure. -/
def busPublish (maxQueueSize : Nat) (st : BusState) (e : BusEvent) : BusState :=
  List.foldl
    (fun s etype =>
      { queues := Function.update s.queues etype (queuePush maxQueueSize (s.queues etype) e)
        dropped := Function.update s.dropped etype
          (s.dropped etype + queuePushDrops maxQueueSize (s.queues etype)) })
    st [e.type, "*"]

/-- Publishing a whole sequence of events, in order. -/
def busPublishAll (maxQueueSize : Nat) (st : BusState) (es : List BusEvent) : BusState :=
  List.foldl (busPublish maxQueueSize) st es

/-- Draining `subscribe(topic)` with no concurrent publisher: the
generator pops `popleft()` until the topic deque is empty, yielding the
queued events in FIFO order. -/
def busDrain (st : BusState) (topic : String) : List BusEvent :=
  st.queues topic

/-- Folding `queuePush` over a list of events. -/
def queueFold (maxQueueSize : Nat) (q : List BusEvent) (es : List BusEvent) : List BusEvent :=
  List.foldl (queuePush maxQueueSize) q es

/-- Total number of events evicted while folding `queuePush`. -/
def queueFoldDrops (maxQueueSize : Nat) (q : List BusEvent) : List BusEvent → Nat
  | [] => 0
  | e :: es => queuePushDrops maxQueueSize q + queueFoldDrops maxQueueSize (queuePush maxQueueSize q e) es

theorem queueFold_drop_eq (m : Nat) (hm : 0 < m) :
    ∀ (es q : List BusEvent), q.length ≤ m →
      queueFold m q es = (q ++ es).drop (q.length + es.length - m) ∧
      queueFoldDrops m q es = q.length + es.length - m := by
  intro es
  induction es with
  | nil =>
    intro q hq
    refine ⟨?_, ?_⟩
    · simp only [queueFold, List.foldl_nil, List.append_nil, List.length_nil]
      have hz : q.length + 0 - m = 0 := by omega
      rw [hz, List.drop_zero]
    · simp only [queueFoldDrops, List.length_nil]
      omega
  | cons e es ih =>
    intro q hq
    by_cases hc : m ≤ q.length
    · have hqm : q.length = m := le_antisymm hq hc
      cases q with
      | nil =>
        exfalso
        simp only [List.length_nil] at hqm
        omega
      | cons a q0 =>
        have hqm0 : q0.length + 1 = m := by simpa using hqm
        have hpush : queuePush m (a :: q0) e = q0 ++ [e] := by
          simp only [queuePush, if_pos hc, List.tail_cons]
        have hlen : (q0 ++ [e]).length = m := by
          simp only [List.length_append, List.length_cons, List.length_nil] at hqm ⊢
          omega
        obtain ⟨ih1, ih2⟩ := ih (q0 ++ [e]) (le_of_eq hlen)
        have hstep : queueFold m (a :: q0) (e :: es) = queueFold m (q0 ++ [e]) es := by
          simp only [queueFold, List.foldl_cons, hpush]
        have hdstep : queueFoldDrops m (a :: q0) (e :: es) =
            1 + queueFoldDrops m (q0 ++ [e]) es := by
          simp only [queueFoldDrops, queuePushDrops, if_pos hc, hpush]
        refine ⟨?_, ?_⟩
        · rw [hstep, ih1]
          have i1 : (q0 ++ [e]).length + es.length - m = es.length := by
            rw [hlen]
            omega
          have i2 : (a :: q0).length + (e :: es).length - m = es.length + 1 := by
            simp only [List.length_cons]
            omega
          rw [i1, i2]
          rw [List.append_assoc, List.singleton_append, List.cons_append,
            List.drop_succ_cons]
        · rw [hdstep, ih2, hlen]
          simp only [List.length_cons]
          omega
    · push_neg at hc
      have hpush : queuePush m q e = q ++ [e] := by
        simp only [queuePush, if_neg (not_le.mpr hc)]
      have hlen : (q ++ [e]).length ≤ m := by
        simp only [List.length_append, List.length_cons, List.length_nil]
        omega
      obtain ⟨ih1, ih2⟩ := ih (q ++ [e]) hlen
      have hstep : queueFold m q (e :: es) = queueFold m (q ++ [e]) es := by
        simp only [queueFold, List.foldl_cons, hpush]
      have hdstep : queueFoldDrops m q (e :: es) = queueFoldDrops m (q ++ [e]) es := by
        simp only [queueFoldDrops, queuePushDrops, if_neg (not_le.mpr hc), hpush]
        omega
      refine ⟨?_, ?_⟩
      · rw [hstep, ih1]
        have i1 : (q ++ [e]).length + es.length - m = q.length + (e :: es).length - m := by
          simp only [List.length_append, List.length_cons, List.length_nil]
          omega
        rw [i1, List.append_assoc, List.singleton_append]
      · rw [hdstep, ih2]
        simp only [List.length_append, List.length_cons, List.length_nil]
        omega

theorem busPublish_queue_spec (m : Nat) (st : BusState) (e : BusEvent) (T : String)
    (hT : T ≠ "*") (he : e.type = T) :
    (busPublish m st e).queues T = queuePush m (st.queues T) e ∧
    (busPublish m st e).dropped T = st.dropped T + queuePushDrops m (st.queues T) := by
  subst he
  unfold busPublish
  dsimp only [List.foldl]
  constructor
  · rw [Function.update_noteq hT, Function.update_same]
  · rw [Function.update_noteq hT, Function.update_same]

theorem busPublishAll_queue_spec (m : Nat) (T : String) (hT : T ≠ "*") :
    ∀ (es : List BusEvent) (st : BusState), (∀ e ∈ es, e.type = T) →
      (busPublishAll m st es).queues T = queueFold m (st.queues T) es ∧
      (busPublishAll m st es).dropped T = st.dropped T + queueFoldDrops m (st.queues T) es := by
  intro es
  induction es with
  | nil =>
    intro st _
    simp [busPublishAll, queueFold, queueFoldDrops]
  | cons e es ih =>
    intro st hall
    have he : e.type = T := hall e (List.mem_cons_self e es)
    have hrest : ∀ x ∈ es, x.type = T := fun x hx => hall x (List.mem_cons_of_mem e hx)
    have hstep := busPublish_queue_spec m st e T hT he
    have ihs := ih (busPublish m st e) hrest
    have hall : busPublishAll m st (e :: es) = busPublishAll m (busPublish m st e) es := by
      simp [busPublishAll]
    constructor
    · rw [hall, ihs.1, hstep.1]
      simp [queueFold]
    · rw [hall, ihs.2, hstep.1, hstep.2]
      simp only [queueFoldDrops]
      omega

/-- Claim C2 (queue-bus drop-oldest backpressure): publishing a
sequence E of same-typed events on a fresh competing-consumer bus with
no subscriber draining, where |E| exceeds `max_queue_size`, leaves
exactly the last `max_queue_size` events of E (in publish order) in the
topic queue — so a later subscribe-and-drain yields the tail
E[|E| − max :] — and the drop-oldest policy evicted exactly
|E| − max_queue_size events of that topic. -/
theorem C2_queue_bus_drop_oldest (m : Nat) (T : String) (E : List BusEvent)
    (hm : 0 < m) (_hlen : m < E.length) (hT : T ≠ "*") (htypes : ∀ e ∈ E, e.type = T) :
    busDrain (busPublishAll m emptyBus E) T = E.drop (E.length - m) ∧
    (busPublishAll m emptyBus E).dropped T = E.length - m := by
  have hq := busPublishAll_queue_spec m T hT E emptyBus htypes
  have h0q : emptyBus.queues T = [] := rfl
  have h0d : emptyBus.dropped T = 0 := rfl
  rw [h0q, h0d] at hq
  have hfold := queueFold_drop_eq m hm E [] (by simp)
  constructor
  · rw [busDrain, hq.1, hfold.1]
    simp
  · rw [hq.2, hfold.2]
    simp

/-- Witness for C2: the spec scenario — max_queue_size 3, five events
e1..e5 published while nobody drains; the drain yields [e3, e4, e5] and
two events were dropped. -/
theorem C2_queue_bus_drop_oldest_witness :
    busDrain (busPublishAll 3 emptyBus
        [⟨"MD_TICK", 1⟩, ⟨"MD_TICK", 2⟩, ⟨"MD_TICK", 3⟩, ⟨"MD_TICK", 4⟩, ⟨"MD_TICK", 5⟩])
        "MD_TICK" =
      [⟨"MD_TICK", 3⟩, ⟨"MD_TICK", 4⟩, ⟨"MD_TICK", 5⟩] ∧
    (busPublishAll 3 emptyBus
        [⟨"MD_TICK", 1⟩, ⟨"MD_TICK", 2⟩, ⟨"MD_TICK", 3⟩, ⟨"MD_TICK", 4⟩, ⟨"MD_TICK", 5⟩]).dropped
        "MD_TICK" = 2 := by
  have h := C2_queue_bus_drop_oldest 3 "MD_TICK"
    [⟨"MD_TICK", 1⟩, ⟨"MD_TICK", 2⟩, ⟨"MD_TICK", 3⟩, ⟨"MD_TICK", 4⟩, ⟨"MD_TICK", 5⟩]
    (by decide) (by decide) (by decide) (by decide)
  simpa using h

/- ------------------------------------------------------------------ -/
/- Strategy engine (src/shijim/strategy/engine.py, strategy/ofi.py)    -/
/- ------------------------------------------------------------------ -/

/-- Order state machine of `OrderStateManager`. -/
inductive OrderState where
  | IDLE
  | WORKING
  | CHASING
  | FILLED
deriving DecidableEq, Repr

/-- Action carried by an `OrderRequest`. -/
inductive OrderRequestAction where
  | CANCEL
  | CANCEL_REPLACE
deriving DecidableEq, Repr

/-- Order intent emitted by the strategy and validated by the risk gate
(src/shijim/strategy/engine.py, dataclass OrderRequest).  Python floats
are embedded as exact rationals. -/
structure OrderRequest where
  action : OrderRequestAction
  price : Option ℚ
  quantity : ℚ
  reason : String
  symbol : Option String := none
  side : Option String := none
  internal_id : Option String := none
  broker_order_id : Option String := none
deriving DecidableEq, Repr

/-- Strategy configuration (dataclass StrategyConfig). -/
structure StrategyConfig where
  chase_threshold : ℚ
  max_chase_round : ℕ
deriving DecidableEq, Repr

/-- Top-of-book snapshot (src/shijim/strategy/ofi.py, dataclass BboState). -/
structure BboState where
  bid_price : ℚ
  bid_size : ℚ
  ask_price : ℚ
  ask_size : ℚ
deriving DecidableEq, Repr

/-- Result record of `OfiCalculator.process_tick`. -/
structure OfiComputation where
  bid_imbalance : ℚ
  ask_imbalance : ℚ
  net_ofi : ℚ
  state : BboState
deriving DecidableEq, Repr

/-- Static method `OfiCalculator._bid_imbalance`. -/
def OfiCalculator.bidImbalance (prev curr : BboState) : ℚ :=
  if curr.bid_price > prev.bid_price then curr.bid_size
  else if curr.bid_price = prev.bid_price then curr.bid_size - prev.bid_size
  else -prev.bid_size

/-- Static method `OfiCalculator._ask_imbalance`. -/
def OfiCalculator.askImbalance (prev curr : BboState) : ℚ :=
  if curr.ask_price < prev.ask_price then curr.ask_size
  else if curr.ask_price = prev.ask_price then curr.ask_size - prev.ask_size
  else -prev.ask_size

/-- Method `OfiCalculator.process_tick` with the calculator's
`_prev_state` passed and returned explicitly.  On a cold start it seeds
the state and publishes the neutral signal. -/
def OfiCalculator.processTick (prevState : Option BboState)
    (bid_price bid_size ask_price ask_size : ℚ) : OfiComputation × Option BboState :=
  let current : BboState := ⟨bid_price, bid_size, ask_price, ask_size⟩
  match prevState with
  | none => (⟨0, 0, 0, current⟩, some current)
  | some prev =>
      let bi := OfiCalculator.bidImbalance prev current
      let ai := OfiCalculator.askImbalance prev current
      (⟨bi, ai, bi - ai, current⟩, some current)

/-- State of a `SmartChasingEngine` instance: configuration, the resting
order, the `OrderStateManager` fields and the engine-owned
`OfiCalculator`'s previous BBO. -/
structure SmartChasingEngine where
  config : StrategyConfig
  side : String
  order_price : ℚ
  order_qty : ℚ
  state : OrderState
  chase_count : ℕ
  ofi_prev : Option BboState
  logs : List String
deriving DecidableEq, Repr

/-- Method `SmartChasingEngine.on_tick`: returns the updated engine and
the emitted order requests.  The decision ladder mirrors the source:
early exit in CHASING/IDLE, max-chase cancellation, no-op when the
price has not drifted, then the chase/alpha rules. -/
def SmartChasingEngine.onTick (eng0 : SmartChasingEngine) (bbo : BboState)
    (ofi_override : Option ℚ) : SmartChasingEngine × List OrderRequest :=
  let eng := { eng0 with logs := [] }
  if eng.state = OrderState.CHASING then (eng, [])
  else if eng.state = OrderState.IDLE then (eng, [])
  else
    let pt := OfiCalculator.processTick eng.ofi_prev bbo.bid_price bbo.bid_size
      bbo.ask_price bbo.ask_size
    let eng := { eng with ofi_prev := pt.2 }
    let ofi_signal : ℚ := ofi_override.getD pt.1.net_ofi
    let market_bid := bbo.bid_price
    let price_diff := market_bid - eng.order_price
    if eng.chase_count ≥ eng.config.max_chase_round ∧ price_diff > 0 then
      ({ eng with state := OrderState.IDLE },
        [{ action := OrderRequestAction.CANCEL, price := none,
           quantity := eng.order_qty, reason := "MaxChaseReached" }])
    else if price_diff ≤ 0 then (eng, [])
    else
      let should_chase := price_diff > eng.config.chase_threshold
      let alpha_push := price_diff ≥ eng.config.chase_threshold ∧ ofi_signal > 0
      if ¬should_chase ∧ ¬alpha_push then (eng, [])
      else if ofi_signal < 0 ∧ should_chase then
        ({ eng with logs := eng.logs ++ ["Hold: Negative Alpha Protection"] }, [])
      else
        let reason := if alpha_push ∧ ofi_signal > 0 then "AlphaDriven" else "PriceDrift"
        ({ eng with order_price := market_bid, chase_count := eng.chase_count + 1,
                    state := OrderState.CHASING },
          [{ action := OrderRequestAction.CANCEL_REPLACE, price := some market_bid,
             quantity := eng.order_qty, reason := reason }])

/-- Claim C9 (strategy chase emission): with `chase_threshold=2`,
`max_chase_round=3`, a WORKING engine resting a BUY at 100 with
`chase_count=0`, a tick whose market bid is 103 under an OFI value of 0
makes `on_tick` emit exactly one CANCEL_REPLACE at price 103 with
reason "PriceDrift", set `chase_count` to 1 and transition to CHASING.
Quantity, the remaining BBO fields and the previous OFI state are
arbitrary. -/
theorem C9_strategy_chase_emission (qty : ℚ) (prev : Option BboState)
    (bs ap asz : ℚ) (logs : List String) :
    SmartChasingEngine.onTick
        ⟨⟨2, 3⟩, "BUY", 100, qty, OrderState.WORKING, 0, prev, logs⟩
        ⟨103, bs, ap, asz⟩ (some 0) =
      (⟨⟨2, 3⟩, "BUY", 103, qty, OrderState.CHASING, 1, some ⟨103, bs, ap, asz⟩, []⟩,
        [⟨OrderRequestAction.CANCEL_REPLACE, some 103, qty, "PriceDrift",
          none, none, none, none⟩]) := by
  cases prev <;>
    norm_num [SmartChasingEngine.onTick, OfiCalculator.processTick, Option.getD] <;>
    rw [if_neg (by decide : ¬ (OrderState.WORKING = OrderState.CHASING)),
      if_neg (by decide : ¬ (OrderState.WORKING = OrderState.IDLE))]

/- ------------------------------------------------------------------ -/
/- Risk gate (src/shijim/risk/guards.py, src/shijim/risk/manager.py)   -/
/- ------------------------------------------------------------------ -/

/-- Outcome of one guard check (dataclass RiskResult). -/
structure RiskResult where
  passed : Bool
  reason : Option String := none
deriving DecidableEq, Repr

/-- Risk configuration (dataclass RiskManagerConfig). -/
structure RiskManagerConfig where
  max_order_qty : ℚ
  max_position : ℚ
  price_deviation : ℚ
  max_orders_per_sec : ℕ
deriving DecidableEq, Repr

/-- Method `KillSwitch.check`: inactive switch passes everything;
an active switch passes only CANCEL. -/
def killSwitchCheck (active : Bool) (o : OrderRequest) : RiskResult :=
  if active = false then ⟨true, none⟩
  else if o.action = OrderRequestAction.CANCEL then ⟨true, none⟩
  else ⟨false, some "KillSwitch"⟩

/-- Method `FatFingerGuard.check`.  CANCEL orders and orders without a
price pass unconditionally; otherwise the relative price deviation and
then the quantity are validated.  (Rational division is total in Lean;
the Python code would raise ZeroDivisionError at ref_price = 0, an
input no claim touches.) -/
def fatFingerCheck (config : RiskManagerConfig) (ref_price : ℚ) (o : OrderRequest) :
    RiskResult :=
  if o.action = OrderRequestAction.CANCEL then ⟨true, none⟩
  else
    match o.price with
    | none => ⟨true, none⟩
    | some p =>
        let deviation := |p - ref_price| / ref_price
        if deviation > config.price_deviation then ⟨false, some "PriceDeviation"⟩
        else if o.quantity > config.max_order_qty then ⟨false, some "MaxOrderQty"⟩
        else ⟨true, none⟩

/-- Python test `order.side and order.side.upper() == "SELL"` of
`PositionGuard.check`. -/
def sideIsSell : Option String → Bool
  | none => false
  | some s => s.toUpper = "SELL"

/-- Method `PositionGuard.check`: projects the position sign-adjusted by
side and compares against the position limit. -/
def positionCheck (config : RiskManagerConfig) (position : ℚ) (o : OrderRequest) :
    RiskResult :=
  if o.action = OrderRequestAction.CANCEL then ⟨true, none⟩
  else
    let qty := if sideIsSell o.side then -o.quantity else o.quantity
    let next_position := position + qty
    if |next_position| > config.max_position then ⟨false, some "PositionLimit"⟩
    else ⟨true, none⟩

/-- Method `RateLimiter._refill` of the token bucket: elapsed time times
the refill rate is added to the bucket, capped at `burst`; the bucket
state is (tokens, last_refill). -/
def rateLimiterRefill (rate burst tokens lastRefill now : ℚ) : ℚ × ℚ :=
  let elapsed := now - lastRefill
  if elapsed > 0 then (min burst (tokens + elapsed * rate), now)
  else (tokens, lastRefill)

/-- Method `RateLimiter.check`: refill, then spend one token if at
least one is available. -/
def rateLimiterCheck (rate burst tokens lastRefill now : ℚ) :
    RiskResult × ℚ × ℚ :=
  let r := rateLimiterRefill rate burst tokens lastRefill now
  if r.1 < 1 then (⟨false, some "RateLimit"⟩, r.1, r.2)
  else (⟨true, none⟩, r.1 - 1, r.2)

/-- Mutable state of a `RiskAwareGateway`: the kill switch flag, the
fat-finger reference price, the tracked position, the risk
configuration and the token bucket.  Per `RiskAwareGateway.__post_init__`
the bucket's rate and burst both equal `config.max_orders_per_sec`.
`monotonic()` readings are passed in explicitly as `now`. -/
structure RiskAwareGateway where
  killActive : Bool
  refPrice : ℚ
  position : ℚ
  config : RiskManagerConfig
  tokens : ℚ
  lastRefill : ℚ
deriving DecidableEq, Repr

/-- Method `RiskAwareGateway._check`: guards run in order kill switch,
fat finger, position, rate limiter; the first failure rejects and later
guards (hence the token bucket) are not consulted. -/
def gatewayCheck (gw : RiskAwareGateway) (now : ℚ) (o : OrderRequest) :
    RiskResult × RiskAwareGateway :=
  let kill := killSwitchCheck gw.killActive o
  if kill.passed = false then (kill, gw)
  else
    let finger := fatFingerCheck gw.config gw.refPrice o
    if finger.passed = false then (finger, gw)
    else
      let pos := positionCheck gw.config gw.position o
      if pos.passed = false then (pos, gw)
      else
        let rate : ℚ := gw.config.max_orders_per_sec
        let rc := rateLimiterCheck rate rate gw.tokens gw.lastRefill now
        (rc.1, { gw with tokens := rc.2.1, lastRefill := rc.2.2 })

/-- Method `RiskAwareGateway.send`: each order is checked; passing
orders are forwarded to the inner gateway, failing ones produce a
structured RiskReject event (reason, order) on the event queue. -/
def gatewaySend (gw : RiskAwareGateway) (now : ℚ) (orders : List OrderRequest) :
    List OrderRequest × List (Option String × OrderRequest) × RiskAwareGateway :=
  List.foldl
    (fun acc o =>
      let rc := gatewayCheck acc.2.2 now o
      if rc.1.passed then (acc.1 ++ [o], acc.2.1, rc.2)
      else (acc.1, acc.2.1 ++ [(rc.1.reason, o)], rc.2))
    ([], [], gw) orders

/-- Tokens available to the rate limiter after the refill that `check`
performs at time `now`. -/
def refilledTokens (gw : RiskAwareGateway) (now : ℚ) : ℚ :=
  (rateLimiterRefill gw.config.max_orders_per_sec gw.config.max_orders_per_sec
    gw.tokens gw.lastRefill now).1

/-- Counterexample to claim C5 as stated: with the kill switch active a
CANCEL request does NOT always pass the gate — when the token bucket is
empty the rate limiter (the last guard of `_check`) rejects it with
reason "RateLimit".  Concrete input: bucket at 0 tokens with no time
elapsed. -/
theorem C5_kill_switch_gating_counterexample :
    (gatewayCheck
        ⟨true, 100, 0, ⟨10, 10, (1 : ℚ)/10, 5⟩, 0, 0⟩ 0
        ⟨OrderRequestAction.CANCEL, none, 1, "cancel", none, none, none, none⟩).1 =
      ⟨false, some "RateLimit"⟩ := by
  norm_num [gatewayCheck, killSwitchCheck, fatFingerCheck, positionCheck,
    rateLimiterCheck, rateLimiterRefill]

/-- Claim C5, amended (kill-switch gating): whenever the kill switch is
active, every non-CANCEL request is rejected with reason "KillSwitch" —
the state is untouched, `send` forwards nothing to the inner adapter
and emits one structured rejection — while a CANCEL request passes the
kill-switch, fat-finger and position guards and passes the whole gate
exactly when the token bucket holds at least one token after refill;
with an empty bucket it is rejected with reason "RateLimit". -/
theorem C5_kill_switch_gating (gw : RiskAwareGateway) (now : ℚ) (o : OrderRequest)
    (hkill : gw.killActive = true) :
    (o.action ≠ OrderRequestAction.CANCEL →
      gatewayCheck gw now o = (⟨false, some "KillSwitch"⟩, gw) ∧
      gatewaySend gw now [o] = ([], [(some "KillSwitch", o)], gw)) ∧
    (o.action = OrderRequestAction.CANCEL →
      (gatewayCheck gw now o).1 =
        if refilledTokens gw now < 1 then ⟨false, some "RateLimit"⟩
        else ⟨true, none⟩) := by
  constructor
  · intro hact
    have hks : killSwitchCheck gw.killActive o = ⟨false, some "KillSwitch"⟩ := by
      rw [killSwitchCheck, hkill]
      rw [if_neg (by simp)]
      rw [if_neg hact]
    have hchk : gatewayCheck gw now o = (⟨false, some "KillSwitch"⟩, gw) := by
      rw [gatewayCheck]
      simp [hks]
    refine ⟨hchk, ?_⟩
    rw [gatewaySend]
    simp only [List.foldl_cons, List.foldl_nil, hchk]
    simp
  · intro hact
    have hks : killSwitchCheck gw.killActive o = ⟨true, none⟩ := by
      rw [killSwitchCheck, hkill]
      rw [if_neg (by simp)]
      rw [if_pos hact]
    have hff : fatFingerCheck gw.config gw.refPrice o = ⟨true, none⟩ := by
      rw [fatFingerCheck, if_pos hact]
    have hpos : positionCheck gw.config gw.position o = ⟨true, none⟩ := by
      rw [positionCheck, if_pos hact]
    have hgw : (gatewayCheck gw now o).1 =
        (rateLimiterCheck gw.config.max_orders_per_sec gw.config.max_orders_per_sec
          gw.tokens gw.lastRefill now).1 := by
      rw [gatewayCheck]
      simp [hks, hff, hpos]
    rw [hgw]
    simp only [rateLimiterCheck, refilledTokens]
    by_cases hr : (rateLimiterRefill (gw.config.max_orders_per_sec : ℚ)
        (gw.config.max_orders_per_sec : ℚ) gw.tokens gw.lastRefill now).1 < 1
    · simp [hr]
    · simp [hr]

/-- Witness for C5: a concrete active-kill-switch gateway and a
non-CANCEL order — the order is rejected with reason "KillSwitch" and
never reaches the inner adapter. -/
theorem C5_kill_switch_gating_witness :
    gatewayCheck ⟨true, 100, 0, ⟨10, 10, (1 : ℚ)/10, 5⟩, 5, 0⟩ 0
        ⟨OrderRequestAction.CANCEL_REPLACE, some 100, 1, "chase", none, none, none, none⟩ =
      (⟨false, some "KillSwitch"⟩, ⟨true, 100, 0, ⟨10, 10, (1 : ℚ)/10, 5⟩, 5, 0⟩) ∧
    gatewaySend ⟨true, 100, 0, ⟨10, 10, (1 : ℚ)/10, 5⟩, 5, 0⟩ 0
        [⟨OrderRequestAction.CANCEL_REPLACE, some 100, 1, "chase", none, none, none, none⟩] =
      ([], [(some "KillSwitch",
        ⟨OrderRequestAction.CANCEL_REPLACE, some 100, 1, "chase", none, none, none, none⟩)],
        ⟨true, 100, 0, ⟨10, 10, (1 : ℚ)/10, 5⟩, 5, 0⟩) :=
  (C5_kill_switch_gating ⟨true, 100, 0, ⟨10, 10, (1 : ℚ)/10, 5⟩, 5, 0⟩ 0
    ⟨OrderRequestAction.CANCEL_REPLACE, some 100, 1, "chase", none, none, none, none⟩
    rfl).1 (by decide)

/-- Claim C10 (implicit fat-finger bypass for priceless orders): every
order whose price is `None` passes `FatFingerGuard.check` — both the
price-deviation test and the `max_order_qty` quantity test are skipped —
whatever its action or quantity. -/
theorem C10_fat_finger_priceless_bypass (config : RiskManagerConfig) (ref_price : ℚ)
    (o : OrderRequest) (hp : o.price = none) :
    fatFingerCheck config ref_price o = ⟨true, none⟩ := by
  rw [fatFingerCheck]
  by_cases ha : o.action = OrderRequestAction.CANCEL
  · rw [if_pos ha]
  · rw [if_neg ha, hp]

/-- Witness for C10: a non-CANCEL order with null price and a quantity
of one billion — far above the configured `max_order_qty` of 1 — still
passes the fat-finger guard. -/
theorem C10_fat_finger_priceless_bypass_witness :
    fatFingerCheck ⟨1, 10, (1 : ℚ)/100, 5⟩ 100
      ⟨OrderRequestAction.CANCEL_REPLACE, none, 1000000000, "big", none, some "BUY",
        none, none⟩ = ⟨true, none⟩ :=
  C10_fat_finger_priceless_bypass ⟨1, 10, (1 : ℚ)/100, 5⟩ 100
    ⟨OrderRequestAction.CANCEL_REPLACE, none, 1000000000, "big", none, some "BUY",
      none, none⟩ rfl

/- ------------------------------------------------------------------ -/
/- Normalized event schema (src/shijim/events/schema.py)               -/
/- ------------------------------------------------------------------ -/

/-- Dataclass `MDTickEvent` (including the `BaseMDEvent` envelope).
Numeric broker values are embedded as exact rationals; `ts_ns` is
optional because `_datetime_to_ns` returns `None` for absent
timestamps.  The opaque `extras` mapping is kept as rendered key/value
text. -/
structure MDTickEvent where
  ts_ns : Option ℤ
  symbol : String
  asset_type : String
  exchange : String
  extras : List (String × String) := []
  type : String := "MD_TICK"
  price : Option ℚ := none
  size : Option ℚ := none
  side : Option String := none
  total_volume : Option ℚ := none
  total_amount : Option ℚ := none
  price_chg : Option ℚ := none
  pct_chg : Option ℚ := none
deriving DecidableEq, Repr

/-- Dataclass `MDBookEvent` (including the `BaseMDEvent` envelope).
Level arrays keep the broker ordering, index 0 = best; volumes are the
`list[int]` of the schema. -/
structure MDBookEvent where
  ts_ns : Option ℤ
  symbol : String
  asset_type : String
  exchange : String
  extras : List (String × String) := []
  type : String := "MD_BOOK"
  bid_prices : List ℚ := []
  bid_volumes : List ℤ := []
  ask_prices : List ℚ := []
  ask_volumes : List ℤ := []
  bid_total_vol : Option ℚ := none
  ask_total_vol : Option ℚ := none
  underlying_price : Option ℚ := none
deriving DecidableEq, Repr

/- ------------------------------------------------------------------ -/
/- OFI feature calculator (src/shijim/features/ofi.py)                 -/
/- ------------------------------------------------------------------ -/

/-- Output dataclass `OFISignal`. -/
structure OFISignal where
  ts_ns : Option ℤ
  symbol : String
  ofi_value : ℚ
deriving DecidableEq, Repr

/-- Method `OFICalculator._calculate_python` with the per-symbol
`_prev_book` dictionary passed and returned explicitly.  The state is
updated before the early returns, exactly as in the source; the first
event of a symbol seeds the state and emits nothing; an event (or
stored previous event) without bid or ask levels emits a zero signal;
otherwise the four indicator terms are computed from the best levels.
Volumes are read with a head-with-default, which agrees with the
Python indexing on schema-conformant events (equal-length price and
volume arrays). -/
def ofiCalcPython (prevBook : String → Option MDBookEvent) (event : MDBookEvent) :
    (String → Option MDBookEvent) × Option OFISignal :=
  let st := Function.update prevBook event.symbol (some event)
  match prevBook event.symbol with
  | none => (st, none)
  | some prev =>
      if event.bid_prices = [] ∨ event.ask_prices = [] then
        (st, some ⟨event.ts_ns, event.symbol, 0⟩)
      else if prev.bid_prices = [] ∨ prev.ask_prices = [] then
        (st, some ⟨event.ts_ns, event.symbol, 0⟩)
      else
        let b_n := event.bid_prices.headD 0
        let q_n_b := event.bid_volumes.headD 0
        let a_n := event.ask_prices.headD 0
        let q_n_a := event.ask_volumes.headD 0
        let b_prev := prev.bid_prices.headD 0
        let q_prev_b := prev.bid_volumes.headD 0
        let a_prev := prev.ask_prices.headD 0
        let q_prev_a := prev.ask_volumes.headD 0
        let term1 : ℤ := if b_n ≥ b_prev then q_n_b else 0
        let term2 : ℤ := if b_n ≤ b_prev then q_prev_b else 0
        let term3 : ℤ := if a_n ≤ a_prev then q_n_a else 0
        let term4 : ℤ := if a_n ≥ a_prev then q_prev_a else 0
        let ofi : ℤ := (term1 - term2) + (-term3 + term4)
        (st, some ⟨event.ts_ns, event.symbol, (ofi : ℚ)⟩)

/-- Bid-side OFI contribution as written in the specification:
bid_contrib = [b ≥ b']·q_b − [b ≤ b']·q_b'. -/
def specBidContrib (b bp : ℚ) (qb qbp : ℤ) : ℤ :=
  (if b ≥ bp then 1 else 0) * qb - (if b ≤ bp then 1 else 0) * qbp

/-- Ask-side OFI contribution as written in the specification:
ask_contrib = −[a ≤ a']·q_a + [a ≥ a']·q_a'. -/
def specAskContrib (a ap : ℚ) (qa qap : ℤ) : ℤ :=
  -((if a ≤ ap then 1 else 0) * qa) + (if a ≥ ap then 1 else 0) * qap

theorem ofi_terms_eq_spec (b bp a ap : ℚ) (qb qbp qa qap : ℤ) :
    ((if b ≥ bp then qb else 0) - (if b ≤ bp then qbp else 0) +
      (-(if a ≤ ap then qa else 0) + (if a ≥ ap then qap else 0))) =
    specBidContrib b bp qb qbp + specAskContrib a ap qa qap := by
  rw [specBidContrib, specAskContrib]
  by_cases h1 : b ≥ bp <;> by_cases h2 : b ≤ bp <;>
    by_cases h3 : a ≤ ap <;> by_cases h4 : a ≥ ap <;>
    simp [h1, h2, h3, h4]

/-- Claim C8 (OFI contract): the per-symbol state is always reseeded
with the current event; the first event of a symbol emits null; every
subsequent event with best levels on both sides of both snapshots emits
bid_contrib + ask_contrib computed by the specification's indicator
formula from the best-level prices and sizes of the current and
previous snapshots. -/
theorem C8_ofi_contract (st : String → Option MDBookEvent) (e : MDBookEvent) :
    (ofiCalcPython st e).1 = Function.update st e.symbol (some e) ∧
    (st e.symbol = none → (ofiCalcPython st e).2 = none) ∧
    (∀ prev, st e.symbol = some prev →
      e.bid_prices ≠ [] → e.ask_prices ≠ [] →
      prev.bid_prices ≠ [] → prev.ask_prices ≠ [] →
      (ofiCalcPython st e).2 = some ⟨e.ts_ns, e.symbol,
        ((specBidContrib (e.bid_prices.headD 0) (prev.bid_prices.headD 0)
            (e.bid_volumes.headD 0) (prev.bid_volumes.headD 0) +
          specAskContrib (e.ask_prices.headD 0) (prev.ask_prices.headD 0)
            (e.ask_volumes.headD 0) (prev.ask_volumes.headD 0) : ℤ) : ℚ)⟩) := by
  refine ⟨?_, ?_, ?_⟩
  · rw [ofiCalcPython]
    cases hp : st e.symbol with
    | none => rfl
    | some prev =>
      by_cases h1 : e.bid_prices = [] ∨ e.ask_prices = []
      · simp [h1]
      · by_cases h2 : prev.bid_prices = [] ∨ prev.ask_prices = []
        · simp [h1, h2]
        · simp [h1, h2]
  · intro hp
    rw [ofiCalcPython, hp]
  · intro prev hp hb ha hpb hpa
    rw [ofiCalcPython, hp]
    have h1 : ¬ (e.bid_prices = [] ∨ e.ask_prices = []) := by
      rintro (h | h) <;> [exact hb h; exact ha h]
    have h2 : ¬ (prev.bid_prices = [] ∨ prev.ask_prices = []) := by
      rintro (h | h) <;> [exact hpb h; exact hpa h]
    dsimp only
    rw [if_neg h1, if_neg h2]
    dsimp only
    rw [ofi_terms_eq_spec]

/-- Previous book snapshot of the spec's concrete OFI scenario:
bid 100@10, ask 101@10. -/
def ofiPrevBook : MDBookEvent :=
  { ts_ns := some 1, symbol := "TXF", asset_type := "futures", exchange := "TAIFEX",
    bid_prices := [100], bid_volumes := [10], ask_prices := [101], ask_volumes := [10] }

/-- Current book snapshot of the spec's concrete OFI scenario:
bid 100@15, ask 101@10. -/
def ofiCurrBook : MDBookEvent :=
  { ts_ns := some 2, symbol := "TXF", asset_type := "futures", exchange := "TAIFEX",
    bid_prices := [100], bid_volumes := [15], ask_prices := [101], ask_volumes := [10] }

/-- Witness for C8: the spec scenario — previous bid 100@10 / ask
101@10, current bid 100@15 / ask 101@10 yields OFI = (15 − 10) + 0 = +5. -/
theorem C8_ofi_contract_witness :
    (ofiCalcPython (Function.update (fun _ => none) "TXF" (some ofiPrevBook))
      ofiCurrBook).2 = some ⟨some 2, "TXF", 5⟩ := by
  have h := (C8_ofi_contract
    (Function.update (fun _ => none) "TXF" (some ofiPrevBook)) ofiCurrBook).2.2
    ofiPrevBook (by simp [ofiCurrBook]) (by decide) (by decide) (by decide) (by decide)
  rw [h]
  norm_num [specBidContrib, specAskContrib, ofiPrevBook, ofiCurrBook]

/- ------------------------------------------------------------------ -/
/- Columnar writer (src/shijim/recorder/clickhouse_writer.py)          -/
/- ------------------------------------------------------------------ -/

/-- Two-digit zero padding, as produced by strftime "%m" / "%d". -/
def pad2 (n : ℤ) : String :=
  if n < 10 then "0" ++ toString n else toString n

/-- Civil date (proleptic Gregorian, UTC) from days since the Unix
epoch; this is the arithmetic behind
`datetime.fromtimestamp(..., tz=timezone.utc)`. -/
def civilFromDays (z0 : ℤ) : ℤ × ℤ × ℤ :=
  let z := z0 + 719468
  let era := Int.fdiv z 146097
  let doe := z - era * 146097
  let yoe := Int.fdiv (doe - Int.fdiv doe 1460 + Int.fdiv doe 36524 - Int.fdiv doe 146096) 365
  let y := yoe + era * 400
  let doy := doe - (365 * yoe + Int.fdiv yoe 4 - Int.fdiv yoe 100)
  let mp := Int.fdiv (5 * doy + 2) 153
  let d := doy - Int.fdiv (153 * mp + 2) 5 + 1
  let m := mp + (if mp < 10 then 3 else -9)
  (y + (if m ≤ 2 then 1 else 0), m, d)

/-- Method `ClickHouseWriter._trading_day`: "1970-01-01" for a falsy
timestamp (None or 0), else the UTC calendar date YYYY-MM-DD of the
nanosecond timestamp. -/
def tradingDay : Option ℤ → String
  | none => "1970-01-01"
  | some ts =>
      if ts = 0 then "1970-01-01"
      else
        let secs := Int.fdiv ts 1000000000
        let days := Int.fdiv secs 86400
        let c := civilFromDays days
        toString c.1 ++ "-" ++ pad2 c.2.1 ++ "-" ++ pad2 c.2.2

/-- Rendering of an optional integer inside a JSON line. -/
def tsText : Option ℤ → String
  | none => "null"
  | some t => toString t

/-- Stand-in for `orjson.dumps` on a tick event: one line of text per
event carrying the identifying fields.  The exact orjson byte encoding
is not modelled; the claims only depend on one line being appended per
event. -/
def jsonOfTick (e : MDTickEvent) : String :=
  "\x7b\"type\": \"MD_TICK\", \"ts_ns\": " ++ tsText e.ts_ns ++
    ", \"symbol\": \"" ++ e.symbol ++ "\"\x7d"

/-- Stand-in for `orjson.dumps` on a book event. -/
def jsonOfBook (e : MDBookEvent) : String :=
  "\x7b\"type\": \"MD_BOOK\", \"ts_ns\": " ++ tsText e.ts_ns ++
    ", \"symbol\": \"" ++ e.symbol ++ "\"\x7d"

/-- Fallback file `<fallback_dir>/<kind>/<trading day>.jsonl`. -/
def fallbackPath (dir kind day : String) : String :=
  dir ++ "/" ++ kind ++ "/" ++ day ++ ".jsonl"

/-- State of a `ClickHouseWriter`: the two in-memory buffers, the
optional fallback directory, the JSONL fallback files (lines per path)
and the bounded `failed_batch_history` of (kind, count) summaries. -/
structure CHState where
  tickBuffer : List MDTickEvent
  bookBuffer : List MDBookEvent
  fallbackDir : Option String
  files : String → List String
  history : List (String × Nat)

/-- Method `ClickHouseWriter._persist_failed_records`: each (trading
day, payload) record is appended as one line to the per-day, per-kind
fallback file.  The source groups records by path and appends each
group with one file open; the resulting file contents equal this
record-by-record fold. -/
def persistFailedRecords (dir kind : String) (records : List (String × String))
    (files : String → List String) : String → List String :=
  List.foldl
    (fun fs r =>
      let path := fallbackPath dir kind r.1
      Function.update fs path (fs path ++ [r.2]))
    files records

/-- Method `ClickHouseWriter._handle_failed_batch` on already-serialized
records: nothing happens for an empty batch; otherwise the records are
persisted (a no-op when no fallback directory is configured) and a
summary is appended to the history deque of maxlen 32. -/
def chHandleFailed (st : CHState) (kind : String) (records : List (String × String)) :
    CHState :=
  if records = [] then st
  else
    let files := match st.fallbackDir with
      | none => st.files
      | some dir => persistFailedRecords dir kind records st.files
    let h := st.history ++ [(kind, records.length)]
    { st with files := files, history := h.drop (h.length - 32) }

/-- Method `ClickHouseWriter._flush_ticks`: empty buffer returns
immediately; a successful `_send_to_clickhouse` clears the buffer; a
raising send (after all HTTP retries) leaves the buffer untouched and
hands the batch to the fallback handler.  The outcome of the send is
the explicit `sendOk` parameter. -/
def chFlushTicks (sendOk : Bool) (st : CHState) : CHState :=
  if st.tickBuffer = [] then st
  else if sendOk then { st with tickBuffer := [] }
  else chHandleFailed st "ticks"
    (st.tickBuffer.map (fun e => (tradingDay e.ts_ns, jsonOfTick e)))

/-- Method `ClickHouseWriter._flush_books`, same shape as
`_flush_ticks`. -/
def chFlushBooks (sendOk : Bool) (st : CHState) : CHState :=
  if st.bookBuffer = [] then st
  else if sendOk then { st with bookBuffer := [] }
  else chHandleFailed st "books"
    (st.bookBuffer.map (fun e => (tradingDay e.ts_ns, jsonOfBook e)))

theorem persistFailedRecords_spec (dir kind : String) :
    ∀ (records : List (String × String)) (files : String → List String) (p : String),
      persistFailedRecords dir kind records files p =
        files p ++ (records.filter
          (fun r => decide (fallbackPath dir kind r.1 = p))).map Prod.snd := by
  intro records
  induction records with
  | nil =>
    intro files p
    simp [persistFailedRecords]
  | cons r rs ih =>
    intro files p
    have hstep : persistFailedRecords dir kind (r :: rs) files =
        persistFailedRecords dir kind rs
          (Function.update files (fallbackPath dir kind r.1)
            (files (fallbackPath dir kind r.1) ++ [r.2])) := by
      simp [persistFailedRecords]
    rw [hstep, ih]
    by_cases hp : fallbackPath dir kind r.1 = p
    · subst hp
      rw [Function.update_same]
      simp
    · rw [Function.update_noteq (fun h => hp h.symm)]
      simp [hp]

/-- Claim C1 (columnar-writer fallback atomicity): when a tick (or
book) flush fails to send after all retries, the in-memory buffer of
that kind is left unchanged and every event of the failed batch is
appended — one JSON line each, in batch order — to the fallback file
`<fallback_dir>/{ticks|books}/<day>.jsonl` whose day derives from the
event's ts_ns; when the send succeeds the buffer is cleared and no
fallback file changes. -/
theorem C1_columnar_fallback_atomicity (st : CHState) (dir : String)
    (hdir : st.fallbackDir = some dir) :
    ((chFlushTicks false st).tickBuffer = st.tickBuffer ∧
      ∀ p, (chFlushTicks false st).files p =
        st.files p ++ ((st.tickBuffer.map (fun e => (tradingDay e.ts_ns, jsonOfTick e))).filter
          (fun r => decide (fallbackPath dir "ticks" r.1 = p))).map Prod.snd) ∧
    ((chFlushTicks true st).tickBuffer = [] ∧
      ∀ p, (chFlushTicks true st).files p = st.files p) ∧
    ((chFlushBooks false st).bookBuffer = st.bookBuffer ∧
      ∀ p, (chFlushBooks false st).files p =
        st.files p ++ ((st.bookBuffer.map (fun e => (tradingDay e.ts_ns, jsonOfBook e))).filter
          (fun r => decide (fallbackPath dir "books" r.1 = p))).map Prod.snd) ∧
    ((chFlushBooks true st).bookBuffer = [] ∧
      ∀ p, (chFlushBooks true st).files p = st.files p) := by
  refine ⟨⟨?_, ?_⟩, ⟨?_, ?_⟩, ⟨?_, ?_⟩, ⟨?_, ?_⟩⟩
  · rw [chFlushTicks]
    by_cases hb : st.tickBuffer = []
    · simp [hb]
    · rw [if_neg hb]
      simp only [Bool.false_eq_true, if_false, chHandleFailed]
      have hrec : st.tickBuffer.map (fun e => (tradingDay e.ts_ns, jsonOfTick e)) ≠ [] := by
        simpa using hb
      rw [if_neg hrec]
  · intro p
    rw [chFlushTicks]
    by_cases hb : st.tickBuffer = []
    · simp [hb]
    · rw [if_neg hb]
      simp only [Bool.false_eq_true, if_false, chHandleFailed]
      have hrec : st.tickBuffer.map (fun e => (tradingDay e.ts_ns, jsonOfTick e)) ≠ [] := by
        simpa using hb
      rw [if_neg hrec, hdir]
      exact persistFailedRecords_spec dir "ticks" _ st.files p
  · rw [chFlushTicks]
    by_cases hb : st.tickBuffer = []
    · simp [hb]
    · rw [if_neg hb, if_pos rfl]
  · intro p
    rw [chFlushTicks]
    by_cases hb : st.tickBuffer = []
    · simp [hb]
    · rw [if_neg hb, if_pos rfl]
  · rw [chFlushBooks]
    by_cases hb : st.bookBuffer = []
    · simp [hb]
    · rw [if_neg hb]
      simp only [Bool.false_eq_true, if_false, chHandleFailed]
      have hrec : st.bookBuffer.map (fun e => (tradingDay e.ts_ns, jsonOfBook e)) ≠ [] := by
        simpa using hb
      rw [if_neg hrec]
  · intro p
    rw [chFlushBooks]
    by_cases hb : st.bookBuffer = []
    · simp [hb]
    · rw [if_neg hb]
      simp only [Bool.false_eq_true, if_false, chHandleFailed]
      have hrec : st.bookBuffer.map (fun e => (tradingDay e.ts_ns, jsonOfBook e)) ≠ [] := by
        simpa using hb
      rw [if_neg hrec, hdir]
      exact persistFailedRecords_spec dir "books" _ st.files p
  · rw [chFlushBooks]
    by_cases hb : st.bookBuffer = []
    · simp [hb]
    · rw [if_neg hb, if_pos rfl]
  · intro p
    rw [chFlushBooks]
    by_cases hb : st.bookBuffer = []
    · simp [hb]
    · rw [if_neg hb, if_pos rfl]

/-- Concrete tick used by the C1 witness. -/
def chWitnessTick : MDTickEvent :=
  { ts_ns := some 0, symbol := "2330", asset_type := "stock", exchange := "TSE" }

/-- Concrete writer state used by the C1 witness: one buffered tick, a
configured fallback directory, no fallback files yet. -/
def chWitnessState : CHState :=
  { tickBuffer := [chWitnessTick], bookBuffer := [], fallbackDir := some "fb",
    files := fun _ => [], history := [] }

/-- Witness for C1: flushing the one-tick buffer while the store raises
leaves the buffer intact and appends the tick's JSON line to
fb/ticks/1970-01-01.jsonl (the day derived from its ts_ns). -/
theorem C1_columnar_fallback_atomicity_witness :
    (chFlushTicks false chWitnessState).tickBuffer = [chWitnessTick] ∧
    (chFlushTicks false chWitnessState).files "fb/ticks/1970-01-01.jsonl" =
      [jsonOfTick chWitnessTick] := by
  have h := C1_columnar_fallback_atomicity chWitnessState "fb" rfl
  refine ⟨h.1.1, ?_⟩
  rw [h.1.2]
  rfl

/- ------------------------------------------------------------------ -/
/- Raw writer rotation (src/shijim/recorder/raw_writer.py)             -/
/- ------------------------------------------------------------------ -/

/-- Counters of a `_FileState` (the path is determined by the index via
the zero-padded pattern md_events_NNNN.jsonl). -/
structure RawFileState where
  index : Nat
  event_count : Nat
  bytes_written : Nat
deriving DecidableEq, Repr

/-- One (trading day, symbol) partition of a fresh `RawWriter`: the
open file plus the files already rotated out.  `write_event` touches
only the partition keyed by the event's day and symbol, so partitions
evolve independently and the embedding follows a single partition. -/
structure RawWriterState where
  current : RawFileState
  closedFiles : List RawFileState
deriving DecidableEq, Repr

/-- Fresh partition as `_open_latest_state` creates it when no file
exists yet: index 1, empty file. -/
def rawWriterInit : RawWriterState := ⟨⟨1, 0, 0⟩, []⟩

/-- Rotation condition and effect of `RawWriter.write_event` /
`RawWriter._rotate`: when `bytes_written >= max_file_size_bytes` or
`event_count >= max_events_per_file`, the open file is closed and a
fresh file with incremented index is opened. -/
def rawRotateIfDue (maxBytes maxEvents : Nat) (st : RawWriterState) : RawWriterState :=
  if maxBytes ≤ st.current.bytes_written ∨ maxEvents ≤ st.current.event_count then
    RawWriterState.mk ⟨st.current.index + 1, 0, 0⟩ (st.closedFiles ++ [st.current])
  else st

/-- Method `RawWriter.write_event` for one event whose serialized line
(payload plus trailing newline) is `lineLen` bytes: rotate first if a
limit has been reached, then append the line to the open file,
advancing both counters. -/
def rawWriteEvent (maxBytes maxEvents : Nat) (st : RawWriterState) (lineLen : Nat) :
    RawWriterState :=
  let st1 := rawRotateIfDue maxBytes maxEvents st
  ⟨⟨st1.current.index, st1.current.event_count + 1, st1.current.bytes_written + lineLen⟩,
    st1.closedFiles⟩

/-- A whole sequence of `write_event` calls on a fresh partition. -/
def rawRun (maxBytes maxEvents : Nat) (lens : List Nat) : RawWriterState :=
  List.foldl (rawWriteEvent maxBytes maxEvents) rawWriterInit lens

/-- Every file the partition has produced: rotated-out files plus the
currently open one. -/
def rawAllFiles (st : RawWriterState) : List RawFileState :=
  st.closedFiles ++ [st.current]

/-- Counterexample to claim C6 as stated: the rotation check runs
BEFORE a write (`bytes_written >= max` rotates, then the line is
appended), so a file can end up larger than `max_file_size_bytes`.
With max_file_size_bytes = 10, max_events_per_file = 5 and two events
of 8-byte lines, the first write leaves 8 bytes (below the limit, no
rotation), and the second write brings the same file to 16 bytes,
exceeding the 10-byte limit. -/
theorem C6_raw_rotation_bound_counterexample :
    (rawRun 10 5 [8, 8]).current.bytes_written = 16 ∧
    10 < (rawRun 10 5 [8, 8]).current.bytes_written ∧
    (rawRun 10 5 [8, 8]).closedFiles = [] := by
  decide

theorem rawWriteEvent_preserves (maxBytes maxEvents L : Nat) (hE : 1 ≤ maxEvents)
    (st : RawWriterState) (l : Nat) (hl : l ≤ L)
    (h : ∀ f ∈ rawAllFiles st,
      f.event_count ≤ maxEvents ∧ f.bytes_written ≤ maxBytes - 1 + L) :
    ∀ f ∈ rawAllFiles (rawWriteEvent maxBytes maxEvents st l),
      f.event_count ≤ maxEvents ∧ f.bytes_written ≤ maxBytes - 1 + L := by
  intro f hf
  have hcur := h st.current (by simp [rawAllFiles])
  by_cases hrot : maxBytes ≤ st.current.bytes_written ∨ maxEvents ≤ st.current.event_count
  · have hw : rawWriteEvent maxBytes maxEvents st l =
        ⟨⟨st.current.index + 1, 0 + 1, 0 + l⟩, st.closedFiles ++ [st.current]⟩ := by
      unfold rawWriteEvent rawRotateIfDue
      rw [if_pos hrot]
    rw [hw] at hf
    simp only [rawAllFiles, List.mem_append, List.mem_singleton] at hf
    rcases hf with (hf | hf) | hf
    · exact h f (by simp [rawAllFiles, hf])
    · subst hf
      exact hcur
    · subst hf
      refine ⟨hE, ?_⟩
      show 0 + l ≤ maxBytes - 1 + L
      omega
  · have hw : rawWriteEvent maxBytes maxEvents st l =
        ⟨⟨st.current.index, st.current.event_count + 1, st.current.bytes_written + l⟩,
          st.closedFiles⟩ := by
      unfold rawWriteEvent rawRotateIfDue
      rw [if_neg hrot]
    rw [hw] at hf
    rcases not_or.mp hrot with ⟨hb, he⟩
    rw [not_le] at hb he
    simp only [rawAllFiles, List.mem_append, List.mem_singleton] at hf
    rcases hf with hf | hf
    · exact h f (by simp [rawAllFiles, hf])
    · subst hf
      refine ⟨?_, ?_⟩
      · show st.current.event_count + 1 ≤ maxEvents
        omega
      · show st.current.bytes_written + l ≤ maxBytes - 1 + L
        omega

/-- Claim C6, amended (raw-log rotation bound): because the rotation
check precedes each write, a raw-log file never exceeds
`max_events_per_file` events, and every write lands in a file whose
size before the write is below `max_file_size_bytes`; hence when every
serialized line is at most L bytes, every produced file holds at most
`max_file_size_bytes - 1 + L` bytes (it can overshoot the size limit by
at most one line, as the counterexample shows), while the event bound
is never overshot. -/
theorem C6_raw_rotation_bound (maxBytes maxEvents L : Nat) (hE : 1 ≤ maxEvents)
    (lens : List Nat) (hL : ∀ l ∈ lens, l ≤ L) :
    ∀ f ∈ rawAllFiles (rawRun maxBytes maxEvents lens),
      f.event_count ≤ maxEvents ∧ f.bytes_written ≤ maxBytes - 1 + L := by
  rw [rawRun]
  have haux : ∀ (ls : List Nat) (st : RawWriterState),
      (∀ l ∈ ls, l ≤ L) →
      (∀ f ∈ rawAllFiles st,
        f.event_count ≤ maxEvents ∧ f.bytes_written ≤ maxBytes - 1 + L) →
      ∀ f ∈ rawAllFiles (List.foldl (rawWriteEvent maxBytes maxEvents) st ls),
        f.event_count ≤ maxEvents ∧ f.bytes_written ≤ maxBytes - 1 + L := by
    intro ls
    induction ls with
    | nil =>
      intro st _ hst
      simpa using hst
    | cons l ls ih =>
      intro st hls hst
      rw [List.foldl_cons]
      exact ih (rawWriteEvent maxBytes maxEvents st l)
        (fun x hx => hls x (List.mem_cons_of_mem l hx))
        (rawWriteEvent_preserves maxBytes maxEvents L hE st l
          (hls l (List.mem_cons_self l ls)) hst)
  refine haux lens rawWriterInit hL ?_
  intro f hf
  simp only [rawAllFiles, rawWriterInit, List.nil_append, List.mem_singleton] at hf
  subst hf
  exact ⟨Nat.zero_le _, Nat.zero_le _⟩

/-- Witness for C6 (amended): the counterexample run itself respects
the amended bounds — at most 5 events and at most 10 - 1 + 8 = 17
bytes per file. -/
theorem C6_raw_rotation_bound_witness :
    (rawRun 10 5 [8, 8]).current.event_count ≤ 5 ∧
    (rawRun 10 5 [8, 8]).current.bytes_written ≤ 10 - 1 + 8 :=
  C6_raw_rotation_bound 10 5 8 (by decide) [8, 8] (by decide)
    (rawRun 10 5 [8, 8]).current (by decide)

/- ------------------------------------------------------------------ -/
/- Shared-memory ring buffer (src/shijim/ipc/ring_buffer.py)           -/
/- ------------------------------------------------------------------ -/

/-- Configuration constant SLOT_COUNT: the ring capacity. -/
def SLOT_COUNT : Nat := 1024

/-- One ring slot: `seq_num` (u64) plus the SBE payload, modelled as an
opaque Nat standing for the 248-byte blob. -/
structure RingSlot where
  seq_num : Nat
  payload : Nat
deriving DecidableEq, Repr

/-- The shared-memory segment as `RingBufferReader` views it: the
header's `write_cursor` plus SLOT_COUNT slots. -/
structure RingState where
  write_cursor : Nat
  slots : Fin SLOT_COUNT → RingSlot

/-- The exceptions the reader can raise: ValueError (cursor 0),
DataIntegrityError and StaleReferenceError, each carrying the seq_num
found in the slot. -/
inductive RingReadError where
  | valueError
  | integrityError (found : Nat)
  | staleReferenceError (found : Nat)
deriving DecidableEq, Repr

/-- Method `RingBufferReader._get_slot_index`: cursor 0 raises
ValueError, otherwise the physical index is (cursor - 1) mod
SLOT_COUNT.  (The code after the `return` statement in the source —
which would raise StaleReferenceError on an overrun — is unreachable.) -/
def getSlotIndex (cursor : Nat) : Except RingReadError (Fin SLOT_COUNT) :=
  if cursor = 0 then .error .valueError
  else .ok ⟨(cursor - 1) % SLOT_COUNT, Nat.mod_lt _ (by decide)⟩

/-- Method `RingBufferReader.read_at`: compute the slot index, read the
slot, and raise DataIntegrityError whenever the slot's seq_num differs
from the requested cursor — the only mismatch error the method ever
raises. -/
def readAt (st : RingState) (cursor : Nat) : Except RingReadError RingSlot :=
  match getSlotIndex cursor with
  | .error e => .error e
  | .ok idx =>
      let row := st.slots idx
      if row.seq_num ≠ cursor then .error (.integrityError row.seq_num)
      else .ok row

/-- Initial shared memory: cursor 0, all slot sequence numbers 0. -/
def ringInit : RingState := ⟨0, fun _ => ⟨0, 0⟩⟩

/-- Modelled from the spec: the single producer (a Rust core, not part
of src/) "writes slot payload then publishes by incrementing
write_cursor", write_cursor being the 1-based count of total writes,
with item m stored in slot (m - 1) mod capacity under seq_num m
(spec sect. 4.6 cursor semantics). -/
def ringWrite (st : RingState) (payload : Nat) : RingState :=
  let m := st.write_cursor + 1
  { write_cursor := m
    slots := Function.update st.slots
      ⟨(m - 1) % SLOT_COUNT, Nat.mod_lt _ (by decide)⟩ ⟨m, payload⟩ }

/-- The producer writing a whole sequence of payloads. -/
def ringWriteAll (st : RingState) (ps : List Nat) : RingState :=
  List.foldl ringWrite st ps

theorem ringWriteAll_cursor : ∀ (ps : List Nat) (st : RingState),
    (ringWriteAll st ps).write_cursor = st.write_cursor + ps.length := by
  intro ps
  induction ps with
  | nil => intro st; simp [ringWriteAll]
  | cons p ps ih =>
    intro st
    have : ringWriteAll st (p :: ps) = ringWriteAll (ringWrite st p) ps := by
      simp [ringWriteAll]
    rw [this, ih]
    simp only [ringWrite, List.length_cons]
    omega

theorem ringWriteAll_residue : ∀ (ps : List Nat) (st : RingState),
    (∀ i : Fin SLOT_COUNT, (st.slots i).seq_num = 0 ∨
      (st.slots i).seq_num % SLOT_COUNT = (i.val + 1) % SLOT_COUNT) →
    ∀ i : Fin SLOT_COUNT, ((ringWriteAll st ps).slots i).seq_num = 0 ∨
      ((ringWriteAll st ps).slots i).seq_num % SLOT_COUNT = (i.val + 1) % SLOT_COUNT := by
  intro ps
  induction ps with
  | nil =>
    intro st h i
    simpa [ringWriteAll] using h i
  | cons p ps ih =>
    intro st h i
    have hstep : ringWriteAll st (p :: ps) = ringWriteAll (ringWrite st p) ps := by
      simp [ringWriteAll]
    rw [hstep]
    refine ih (ringWrite st p) ?_ i
    intro j
    by_cases hj : j = (⟨(st.write_cursor + 1 - 1) % SLOT_COUNT,
        Nat.mod_lt _ (by decide)⟩ : Fin SLOT_COUNT)
    · subst hj
      right
      rw [ringWrite]
      simp only [Function.update_same, SLOT_COUNT]
      omega
    · rw [ringWrite]
      simp only [Function.update_noteq hj]
      exact h j

/-- Claim C7 (ring-buffer cursor-to-slot mapping): starting from empty
shared memory, after the producer writes the payload list ps the
write_cursor equals the 1-based count of total writes; every non-zero
slot sequence number is congruent to (slot index + 1) modulo the
capacity, i.e. slot i only ever holds sequences i+1, i+1+capacity, …;
`_get_slot_index` maps every cursor > 0 to physical slot
(cursor − 1) mod capacity; and reading at the current cursor returns
the row of that slot bearing seq_num = cursor and the last written
payload.  Instantiated at |ps| = 1025 this is the spec's wrap scenario:
read_at(1025) reads slot 0 with seq_num 1025. -/
theorem C7_ring_cursor_slot_mapping (ps : List Nat) :
    (ringWriteAll ringInit ps).write_cursor = ps.length ∧
    (∀ i : Fin SLOT_COUNT, ((ringWriteAll ringInit ps).slots i).seq_num = 0 ∨
      ((ringWriteAll ringInit ps).slots i).seq_num % SLOT_COUNT = (i.val + 1) % SLOT_COUNT) ∧
    (∀ cursor : Nat, 0 < cursor →
      Except.map Fin.val (getSlotIndex cursor) = .ok ((cursor - 1) % SLOT_COUNT)) ∧
    (ps ≠ [] →
      readAt (ringWriteAll ringInit ps) ps.length = .ok ⟨ps.length, ps.getLastD 0⟩) := by
  refine ⟨?_, ?_, ?_, ?_⟩
  · rw [ringWriteAll_cursor]
    simp [ringInit]
  · refine ringWriteAll_residue ps ringInit ?_
    intro i
    left
    rfl
  · intro cursor hc
    rw [getSlotIndex, if_neg (by omega)]
    rfl
  · intro hps
    rcases List.eq_nil_or_concat ps with rfl | ⟨ps0, p, rfl⟩
    · exact absurd rfl hps
    · simp only [List.concat_eq_append] at hps ⊢
      have hsplit : ringWriteAll ringInit (ps0 ++ [p]) =
          ringWrite (ringWriteAll ringInit ps0) p := by
        simp [ringWriteAll]
      have hcur : (ringWriteAll ringInit ps0).write_cursor = ps0.length := by
        rw [ringWriteAll_cursor]
        simp [ringInit]
      have hlen : (ps0 ++ [p]).length = ps0.length + 1 := by simp
      rw [hsplit, hlen]
      rw [readAt, getSlotIndex, if_neg (by omega)]
      dsimp only
      have hfin : (⟨(ps0.length + 1 - 1) % SLOT_COUNT,
          Nat.mod_lt _ (by decide)⟩ : Fin SLOT_COUNT) =
          ⟨((ringWriteAll ringInit ps0).write_cursor + 1 - 1) % SLOT_COUNT,
            Nat.mod_lt _ (by decide)⟩ := by
        apply Fin.ext
        simp [hcur]
      rw [hfin]
      have hidx : ((ringWrite (ringWriteAll ringInit ps0) p).slots
          ⟨((ringWriteAll ringInit ps0).write_cursor + 1 - 1) % SLOT_COUNT,
            Nat.mod_lt _ (by decide)⟩) =
          ⟨(ringWriteAll ringInit ps0).write_cursor + 1, p⟩ := by
        rw [ringWrite]
        exact Function.update_same _ _ _
      rw [hidx, hcur]
      rw [if_neg (by simp)]
      simp

set_option maxRecDepth 100000 in
/-- Witness for C7: the spec's wrap scenario — capacity 1024, 1025
payloads written (0..1024); the cursor is 1025, `_get_slot_index`
resolves cursor 1025 to physical slot 0, and `read_at(1025)` returns
that slot bearing seq_num 1025 and the last payload 1024. -/
theorem C7_ring_cursor_slot_mapping_witness :
    (ringWriteAll ringInit (List.range 1025)).write_cursor = 1025 ∧
    Except.map Fin.val (getSlotIndex 1025) = .ok 0 ∧
    readAt (ringWriteAll ringInit (List.range 1025)) 1025 = .ok ⟨1025, 1024⟩ := by
  have h := C7_ring_cursor_slot_mapping (List.range 1025)
  refine ⟨by simpa using h.1, ?_, ?_⟩
  · have h3 := h.2.2.1 1025 (by norm_num)
    rw [h3]
    norm_num [SLOT_COUNT]
  · have h4 := h.2.2.2 (by simp)
    simp only [List.length_range] at h4
    rw [h4]
    rfl

set_option maxRecDepth 100000 in
/-- Claim C3 evidence (ring-buffer error discrimination): the code
does NOT distinguish the lapped-producer case from the unfinished-write
case.  With capacity 1024, after 1124 writes slot 99 holds
seq_num = 1124 = 100 + 1·1024; `read_at(100)` should raise the stale
reference error per the claim, but the source's stale branch sits after
a `return` statement in `_get_slot_index` and is unreachable, so
`read_at` raises DataIntegrityError for this overrun mismatch as it
does for every mismatch. -/
theorem C3_ring_error_discrimination_code_evidence :
    readAt (ringWriteAll ringInit (List.replicate 1124 0)) 100 =
      .error (.integrityError 1124) := by
  rfl

/- ------------------------------------------------------------------ -/
/- Normalizers (src/shijim/events/normalizers.py)                      -/
/- ------------------------------------------------------------------ -/

/-- A value on a broker payload as the normalizer helpers see it:
a numeric value (Decimal / int / float, embedded as an exact rational),
Python None, or something float()/int() rejects. -/
inductive PyVal where
  | num (q : ℚ)
  | pyNone
  | bad
deriving DecidableEq, Repr

/-- Helper `_to_float_list`: Decimal and int/float map to their numeric
value, None and non-convertible values map to 0.0. -/
def toFloatList (seq : List PyVal) : List ℚ :=
  seq.map fun item =>
    match item with
    | .num q => q
    | .pyNone => 0
    | .bad => 0

/-- Python `int()` truncation toward zero on a rational. -/
def ratTrunc (q : ℚ) : ℤ :=
  if 0 ≤ q then ⌊q⌋ else ⌈q⌉

/-- Helper `_to_int_list`: None maps to 0, numbers map through `int()`,
anything int() rejects maps to 0. -/
def toIntList (seq : List PyVal) : List ℤ :=
  seq.map fun item =>
    match item with
    | .num q => ratTrunc q
    | .pyNone => 0
    | .bad => 0

/-- Helper `_to_float` on an optional attribute (after
`_first_non_none` picked it): Decimal converts to its numeric value,
None stays None; a non-numeric value is passed through by the source
and modelled as absent. -/
def toFloatOpt : Option PyVal → Option ℚ
  | Option.none => Option.none
  | some (.num q) => some q
  | some .pyNone => Option.none
  | some .bad => Option.none

/-- Helper `_extract_symbol`: the first of the `code`, `symbol`
attributes that is a non-empty string, else "". -/
def firstNonEmptyString : List (Option String) → String
  | [] => ""
  | Option.none :: rest => firstNonEmptyString rest
  | some s :: rest => if s = "" then firstNonEmptyString rest else s

/-- Helper `_stringify_exchange`: the exchange's string value or "". -/
def stringifyExchange (e : Option String) : String :=
  e.getD ""

/-- A Shioaji BidAsk payload as `normalize_book` reads it.  The
tz-aware `datetime` attribute is carried as the epoch nanoseconds that
`_datetime_to_ns` computes from it. -/
structure BidAskPayload where
  code : Option String := none
  symbol : Option String := none
  datetimeNs : Option ℤ := none
  bid_price : List PyVal := []
  ask_price : List PyVal := []
  bid_volume : List PyVal := []
  ask_volume : List PyVal := []
  bid_total_vol : Option PyVal := none
  ask_total_vol : Option PyVal := none
  underlying_price : Option PyVal := none
  exchange : Option String := none
deriving DecidableEq, Repr

/-- Keyword parameters accepted by the dataclass-generated
`MDBookEvent.__init__` (src/shijim/events/schema.py): the
`BaseMDEvent` fields — `ts_ns`, not `ts` — plus the book fields; the
`type` tag is `init=False`. -/
def mdBookEventInitParams : List String :=
  ["ts_ns", "symbol", "asset_type", "exchange", "extras",
   "bid_prices", "bid_volumes", "ask_prices", "ask_volumes",
   "bid_total_vol", "ask_total_vol", "underlying_price"]

/-- Keyword parameters of `MDBookEvent.__init__` without defaults. -/
def mdBookEventRequiredParams : List String :=
  ["ts_ns", "symbol", "asset_type", "exchange"]

/-- Python keyword-argument call of `MDBookEvent(...)`: an unexpected
keyword raises TypeError, a missing required parameter raises
TypeError, otherwise the event is constructed. -/
def mdBookEventInit (kwargs : List String) (value : MDBookEvent) :
    Except String MDBookEvent :=
  match kwargs.find? (fun k => ! mdBookEventInitParams.contains k) with
  | some k => .error ("TypeError: unexpected keyword argument " ++ k)
  | Option.none =>
      if mdBookEventRequiredParams.all (fun k => kwargs.contains k) then .ok value
      else .error "TypeError: missing required argument"

/-- Function `normalize_book` (normalizers.py lines 61-111): the field
values are computed with the helpers above and the `MDBookEvent`
constructor is called with the keyword list of the source call site —
whose first keyword is `ts`, while the schema's field is `ts_ns`.  The
record passed to `mdBookEventInit` holds the values the call intends
for each schema field; `extras` (an opaque sanitized mapping) is not
modelled field-by-field. -/
def normalize_book (bidask : BidAskPayload) (asset_type : String) :
    Except String MDBookEvent :=
  let symbol := firstNonEmptyString [bidask.code, bidask.symbol]
  let exchange_str := stringifyExchange bidask.exchange
  let ts_ns := bidask.datetimeNs
  let bid_prices := toFloatList bidask.bid_price
  let ask_prices := toFloatList bidask.ask_price
  let bid_volumes := toIntList bidask.bid_volume
  let ask_volumes := toIntList bidask.ask_volume
  mdBookEventInit
    ["ts", "symbol", "asset_type", "exchange", "bid_prices", "bid_volumes",
     "ask_prices", "ask_volumes", "bid_total_vol", "ask_total_vol",
     "underlying_price", "extras"]
    { ts_ns := ts_ns, symbol := symbol, asset_type := asset_type,
      exchange := exchange_str, bid_prices := bid_prices,
      bid_volumes := bid_volumes, ask_prices := ask_prices,
      ask_volumes := ask_volumes,
      bid_total_vol := toFloatOpt bidask.bid_total_vol,
      ask_total_vol := toFloatOpt bidask.ask_total_vol,
      underlying_price := toFloatOpt bidask.underlying_price }

/-- Claim C4 evidence (normalizer best-bid preservation): the claim
says `normalize_book` succeeds and preserves the broker's best bid at
index 0, but on the code as written every call raises
TypeError — the call site passes keyword `ts` (normalizers.py line 73)
to a dataclass whose field is `ts_ns` (schema.py) — so normalization
never returns an event at all, in particular for the concrete payload
with bid_price [150, 149.5].  (The value computation itself, via
`_to_float_list`, does map the first numeric bid price to index 0 of
the intended `bid_prices` value.) -/
theorem C4_normalize_book_raises_type_error :
    (∀ (b : BidAskPayload) (asset_type : String),
      normalize_book b asset_type =
        .error "TypeError: unexpected keyword argument ts") ∧
    normalize_book
      { code := some "2330", datetimeNs := some 1704099600000000000,
        bid_price := [.num 150, .num (299/2)], ask_price := [.num 151],
        bid_volume := [.num 5, .num 4], ask_volume := [.num 3],
        exchange := some "TSE" } "stock" =
      .error "TypeError: unexpected keyword argument ts" ∧
    toFloatList [.num 150, .num (299/2)] = [150, 299/2] := by
  refine ⟨fun b a => rfl, rfl, rfl⟩
